import Mathlib

/-!
# hack-vm-translator: shallow embedding and verification of the core

The Rust crate translates Hack VM commands into Hack assembly. This file
embeds the two core stages — the parser (src/lib/parser.rs) and the
translator (src/lib/translator.rs) — together with the error type
(src/lib/error.rs), and proves the testable properties stated in the
design specification against that embedding.

Modelling conventions:
* Rust `u16` values are `Nat` with an explicit `% 65536` where wrapping
  could matter; `usize` line numbers are `Nat`.
* Fallible Rust functions (`Result<T, HackError>`) are `Except HackError T`.
* `Translator::translate` panics via a `todo!()` marker on branching and
  functional instructions; the embedding returns `Option (Except ...)`,
  with `none` standing for that panic (no value is ever returned there).
* Formatted strings (`format!`) are reproduced with `++` and `Nat.repr`.
-/

namespace HackVM

/-- The error enum of src/lib/error.rs (`HackError`). -/
inductive HackError where
  | CannotReadFileFromPath (msg : String)
  | SymbolHasForbiddenCharacter
  | UnrecognizedInstruction (msg : String)
  | Misconfiguration (args : Nat)
  | FileExistsError (certain : Bool)
  | BadFileTypeError
  | WriteError (msg : String)
  | Internal
  | FromStrError (msg : String)
  | Overflow
  | IllegalInstruction (msg : String)
  deriving DecidableEq, Repr

/-- The `Display` impl for `HackError` (error.rs). `Constant::MAX_VALID_CONSTANT`
is rendered as its decimal value 32767. -/
def HackError.display : HackError → String
  | .SymbolHasForbiddenCharacter =>
      "symbols must be a sequence of letters (a-z || A-Z), digits (0-9), underscores (_), dots (.), dollar signs ($), and/or colons (:) that does not begin with a digit"
  | .UnrecognizedInstruction bad_instruction =>
      "could not determine instruction type for \"" ++ bad_instruction ++ "\""
  | .Misconfiguration args =>
      "expected 1 argument (file.asm), found " ++ Nat.repr args ++ " arguments"
  | .FileExistsError certain =>
      if certain then
        "the target output file already exists, and this program refuses to overwrite it"
      else
        "there is uncertainty about whether or not it is safe to create a new file of the target name"
  | .BadFileTypeError => "the target file must have the \".asm\" extension"
  | .Overflow =>
      "constants much be non-negative integers which are less than or equal to 32767"
  | .IllegalInstruction error_message => error_message
  | .FromStrError error_message => error_message
  | .WriteError error_message => error_message
  | .CannotReadFileFromPath error_message => error_message
  | .Internal => "internal error, please report this incident"

/-- `Symbol` (parser.rs): a wrapper around the validated string. The validity
invariant is enforced by the `fromStr` smart constructor, as in the source. -/
structure Symbol where
  literal_representation : String
  deriving DecidableEq, Repr

/-- `Symbol::is_allowed_symbol` (parser.rs): non-empty, every character an
ASCII letter, digit, underscore, colon, dot or dollar sign, and the first
character not a digit. -/
def Symbol.is_allowed_symbol (string : String) : Bool :=
  !string.isEmpty
    && !(string.data.any fun character =>
      !(character.isAlphanum
        || character = '_'
        || character = ':'
        || character = '.'
        || character = '$'))
    && !(match string.data with
      | [] => false
      | character :: _ => character.isDigit)

/-- `impl FromStr for Symbol` (parser.rs). -/
def Symbol.fromStr (s : String) : Except HackError Symbol :=
  if Symbol.is_allowed_symbol s then
    .ok ⟨s⟩
  else
    .error .SymbolHasForbiddenCharacter

/-- The `Display` impl for `Symbol`. -/
def Symbol.display (s : Symbol) : String :=
  s.literal_representation

/-- `Constant` (parser.rs): a wrapper around the stored `u16`. The range
invariant `value ≤ 0x7FFF` is enforced by the constructors, as in the
source. -/
structure Constant where
  literal_representation : Nat
  deriving DecidableEq, Repr

/-- `Constant::MAX_VALID_CONSTANT = 0x7FFF` (parser.rs). -/
def Constant.MAX_VALID_CONSTANT : Nat := 0x7FFF

/-- `impl TryFrom<u16> for Constant` (parser.rs). -/
def Constant.tryFromU16 (value : Nat) : Except HackError Constant :=
  if value ≤ Constant.MAX_VALID_CONSTANT then
    .ok ⟨value⟩
  else
    .error .Overflow

/-- Digit-accumulation loop of Rust `u16::from_str` (`from_str_radix` at
base 10): left to right, failing on the first non-digit with the
invalid-digit message, and failing with the overflow message as soon as the
accumulator would exceed `u16::MAX = 65535` (`checked_mul`/`checked_add`).
The error strings are the `Display` forms of `core::num::ParseIntError`. -/
def parseU16Digits : List Char → Nat → Except String Nat
  | [], acc => .ok acc
  | c :: cs, acc =>
    if c.isDigit then
      let acc' := acc * 10 + (c.toNat - 48)
      if 65535 < acc' then .error "number too large to fit in target type"
      else parseU16Digits cs acc'
    else .error "invalid digit found in string"

/-- Model of Rust `str::parse::<u16>`: an empty string fails with the
empty-string message; an optional leading plus sign is allowed; the digit
run is then accumulated by `parseU16Digits`. -/
def parseU16 (s : String) : Except String Nat :=
  match s.data with
  | [] => .error "cannot parse integer from empty string"
  | '+' :: [] => .error "invalid digit found in string"
  | '+' :: cs => parseU16Digits cs 0
  | cs => parseU16Digits cs 0

/-- `impl FromStr for Constant` (parser.rs): parse the text as a `u16`;
on success apply the range check, on failure wrap the parse error message
in `HackError::FromStrError`. -/
def Constant.fromStr (s : String) : Except HackError Constant :=
  match parseU16 s with
  | .ok value => Constant.tryFromU16 value
  | .error e =>
      .error (.FromStrError
        ("invalid constant: \"" ++ s ++ "\" for reason: " ++ e))

/-- The `Display` impl for `Constant`: the decimal form of the stored value. -/
def Constant.display (c : Constant) : String :=
  Nat.repr c.literal_representation

/-- `StackManipulation` (parser.rs). -/
inductive StackManipulation where
  | Push (symbol : Symbol) (value : Constant)
  | Pop (symbol : Symbol) (value : Constant)
  deriving DecidableEq, Repr

/-- `impl TryFrom<&(&str, Symbol, Constant)> for StackManipulation`. -/
def StackManipulation.tryFrom (command : String) (symbol : Symbol)
    (value : Constant) : Except HackError StackManipulation :=
  if command = "push" then .ok (.Push symbol value)
  else if command = "pop" then .ok (.Pop symbol value)
  else
    .error (.FromStrError
      ("invalid stack manipulation operation: \"" ++ command ++ " "
        ++ symbol.display ++ " " ++ value.display ++ "\""))

/-- `Branching` (parser.rs). -/
inductive Branching where
  | Label (symbol : Symbol)
  | GoTo (symbol : Symbol)
  | IfGoTo (symbol : Symbol)
  deriving DecidableEq, Repr

/-- `impl TryFrom<&(&str, Symbol)> for Branching`. -/
def Branching.tryFrom (command : String) (symbol : Symbol) :
    Except HackError Branching :=
  if command = "label" then .ok (.Label symbol)
  else if command = "goto" then .ok (.GoTo symbol)
  else if command = "if-goto" then .ok (.IfGoTo symbol)
  else
    .error (.FromStrError
      ("invalid branching operation: \"" ++ command ++ " "
        ++ symbol.display ++ "\""))

/-- `Functional` (parser.rs). -/
inductive Functional where
  | Function (symbol : Symbol) (value : Constant)
  | Call (symbol : Symbol) (value : Constant)
  | Return
  deriving DecidableEq, Repr

/-- `impl TryFrom<&(&str, Symbol, Constant)> for Functional`. -/
def Functional.tryFrom (command : String) (symbol : Symbol)
    (value : Constant) : Except HackError Functional :=
  if command = "call" then .ok (.Call symbol value)
  else if command = "function" then .ok (.Function symbol value)
  else
    .error (.FromStrError
      ("invalid functional operation: \"" ++ command ++ " "
        ++ symbol.display ++ " " ++ value.display ++ "\""))

/-- `impl FromStr for Functional`: only `return` parses. -/
def Functional.fromStr (s : String) : Except HackError Functional :=
  if s = "return" then .ok .Return
  else
    .error (.FromStrError ("invalid functional operation: \"" ++ s ++ "\""))

/-- `Arithmetic` (parser.rs): the nine arithmetic/logic operations, with
the source spelling of the variant names. -/
inductive Arithmetic where
  | Add
  | Subtract
  | Negative
  | Equal
  | GreaterThan
  | Lessthan
  | And
  | Or
  | Not
  deriving DecidableEq, Repr

/-- `Arithmetic::identify` (parser.rs): the command word and the associated
operator (the jump mnemonic, for comparisons). -/
def Arithmetic.identify : Arithmetic → String × String
  | .Add => ("add", "+")
  | .Subtract => ("sub", "-")
  | .Negative => ("neg", "-")
  | .Equal => ("eq", "JEQ")
  | .GreaterThan => ("gt", "JGT")
  | .Lessthan => ("lt", "JLT")
  | .And => ("and", "&")
  | .Or => ("or", "|")
  | .Not => ("not", "!")

/-- `impl FromStr for Arithmetic` (parser.rs): the chain of guards against
the nine command words. -/
def Arithmetic.fromStr (s : String) : Except HackError Arithmetic :=
  if s = "add" then .ok .Add
  else if s = "sub" then .ok .Subtract
  else if s = "neg" then .ok .Negative
  else if s = "eq" then .ok .Equal
  else if s = "gt" then .ok .GreaterThan
  else if s = "lt" then .ok .Lessthan
  else if s = "and" then .ok .And
  else if s = "or" then .ok .Or
  else if s = "not" then .ok .Not
  else
    .error (.FromStrError ("invalid arithmetic operation: \"" ++ s ++ "\""))

/-- `Instruction` (parser.rs): the closed union of the four families. -/
inductive Instruction where
  | StackManipulation (v : StackManipulation)
  | Branching (v : Branching)
  | Functional (v : Functional)
  | Arithmetic (v : Arithmetic)
  deriving DecidableEq, Repr

/-- `impl FromStr for Instruction` (one-token lines): try `Arithmetic` and
`Functional`; exactly one must succeed, both failing is unrecognized, both
succeeding is the internal error. -/
def Instruction.fromStr (s : String) : Except HackError Instruction :=
  match Arithmetic.fromStr s, Functional.fromStr s with
  | .ok arithmetic, .error _ => .ok (.Arithmetic arithmetic)
  | .error _, .ok return_command => .ok (.Functional return_command)
  | .error _, .error _ => .error (.UnrecognizedInstruction s)
  | .ok _, .ok _ => .error .Internal

/-- `impl TryFrom<&(&str, Symbol)> for Instruction` (two-token lines). -/
def Instruction.tryFrom2 (command : String) (symbol : Symbol) :
    Except HackError Instruction :=
  match Branching.tryFrom command symbol with
  | .ok branching => .ok (.Branching branching)
  | .error error => .error error

/-- `impl TryFrom<&(&str, Symbol, Constant)> for Instruction` (three-token
lines): try `StackManipulation` and `Functional`; exactly one must succeed. -/
def Instruction.tryFrom3 (command : String) (symbol : Symbol)
    (value : Constant) : Except HackError Instruction :=
  match StackManipulation.tryFrom command symbol value,
      Functional.tryFrom command symbol value with
  | .ok stack_manipulation, .error _ => .ok (.StackManipulation stack_manipulation)
  | .error _, .ok functional => .ok (.Functional functional)
  | .error _, .error _ =>
      .error (.UnrecognizedInstruction
        (command ++ " " ++ symbol.display ++ " " ++ value.display))
  | .ok _, .ok _ => .error .Internal

/-- The per-line dispatch inside `Parser::to_internal_types` (parser.rs):
match on the token count of one surviving line. -/
def Parser.parseParts (parts : List String) : Except HackError Instruction :=
  match parts with
  | [command] => Instruction.fromStr command
  | [command, symbol] =>
    match Symbol.fromStr symbol with
    | .ok symbol => Instruction.tryFrom2 command symbol
    | .error symbol_error => .error symbol_error
  | [command, symbol, constant] =>
    match Symbol.fromStr symbol, Constant.fromStr constant with
    | .ok symbol, .ok constant => Instruction.tryFrom3 command symbol constant
    | .error symbol_error, .error constant_error =>
        .error (.UnrecognizedInstruction
          (symbol_error.display ++ "\n\n" ++ constant_error.display))
    | .ok _, .error error => .error error
    | .error error, .ok _ => .error error
  | _ => .error (.IllegalInstruction "received an illegal instruction")

/-- The fail-fast `collect::<Result<Vec<Instruction>, HackError>>` over the
per-line results: the first error in line order aborts the whole parse. -/
def Parser.collectResults : List (List String) → Except HackError (List Instruction)
  | [] => .ok []
  | parts :: rest =>
    match Parser.parseParts parts with
    | .error e => .error e
    | .ok inst =>
      match Parser.collectResults rest with
      | .error e => .error e
      | .ok insts => .ok (inst :: insts)

/-- `Parser::to_internal_types` (parser.rs): collect all per-line results
fail-fast, then enumerate the surviving instructions from zero. -/
def Parser.to_internal_types (lines_tokens : List (List String)) :
    Except HackError (List (Nat × Instruction)) :=
  match Parser.collectResults lines_tokens with
  | .error e => .error e
  | .ok insts => .ok insts.enum

/-- Whitespace as tested by Rust `char::is_whitespace` on the code points
the translator meets in practice: space, tab, newline, carriage return.
(The Unicode-only whitespace code points are not modelled.) -/
def charIsWhitespace (c : Char) : Bool :=
  c = ' ' || c = '\t' || c = '\n' || c = '\r'

/-- Rust `str::trim` on the character list: drop whitespace from both
ends. -/
def trimChars (l : List Char) : List Char :=
  ((l.dropWhile charIsWhitespace).reverse.dropWhile charIsWhitespace).reverse

/-- Rust `str::trim`. -/
def trimStr (s : String) : String :=
  ⟨trimChars s.data⟩

/-- Rust `str::starts_with` with a string pattern. -/
def strStartsWith (s pattern : String) : Bool :=
  pattern.data.isPrefixOf s.data

/-- Worker for Rust `split_whitespace`: walk the characters keeping the
current token reversed, emitting it at each whitespace run. -/
def splitWsGo : List Char → List Char → List (List Char)
  | [], current => if current.isEmpty then [] else [current.reverse]
  | c :: cs, current =>
    if charIsWhitespace c then
      if current.isEmpty then splitWsGo cs []
      else current.reverse :: splitWsGo cs []
    else splitWsGo cs (c :: current)

/-- Rust `split_whitespace`: the maximal runs of non-whitespace
characters, in order. -/
def Parser.splitWhitespaceTokens (line : String) : List String :=
  (splitWsGo line.data []).map fun chars => ⟨chars⟩

/-- The body of `Parser::lines` (parser.rs), on an already-split list of
physical lines: trim each line, discard it when the trimmed form starts
with the comment marker or is empty, and tokenize the survivors. -/
def Parser.linesList (physical : List String) : List (List String) :=
  physical.filterMap fun raw =>
    let line := trimStr raw
    if strStartsWith line "//" || line.isEmpty then none
    else some (Parser.splitWhitespaceTokens line)

/-- Worker for Rust `str::lines`: split at each newline character,
removing a carriage return that immediately precedes the newline; a final
segment without a newline terminator is kept as is, and the trailing
empty segment produced by a terminating newline is dropped. -/
def splitLinesGo : List Char → List Char → List String
  | [], current => if current.isEmpty then [] else [⟨current.reverse⟩]
  | '\n' :: cs, current =>
    let chars := if current.head? == some '\r' then current.tail else current
    (⟨chars.reverse⟩ : String) :: splitLinesGo cs []
  | c :: cs, current => splitLinesGo cs (c :: current)

/-- Rust `str::lines`. -/
def Parser.splitPhysicalLines (s : String) : List String :=
  splitLinesGo s.data []

/-- `Parser::lines` (parser.rs) on the whole file text. -/
def Parser.lines (file : String) : List (List String) :=
  Parser.linesList (Parser.splitPhysicalLines file)

/-- `Parser::parse` (parser.rs). -/
def Parser.parse (file : String) :
    Except HackError (List (Nat × Instruction)) :=
  Parser.to_internal_types (Parser.lines file)

/-- `Segment` (translator.rs): the eight virtual memory regions. -/
inductive Segment where
  | Constant
  | Local
  | Argument
  | This
  | That
  | Static
  | Temp
  | Pointer
  deriving DecidableEq, Repr

/-- `Segment::base` (translator.rs): the base-pointer symbol of the four
indirectly addressed segments; anything else is the internal error. -/
def Segment.base : Segment → Except HackError String
  | .Local => .ok "LCL"
  | .Argument => .ok "ARG"
  | .This => .ok "THIS"
  | .That => .ok "THAT"
  | _ => .error .Internal

/-- `impl TryFrom<&Symbol> for Segment` (translator.rs). -/
def Segment.tryFrom (value : Symbol) : Except HackError Segment :=
  match value.literal_representation with
  | "constant" => .ok .Constant
  | "local" => .ok .Local
  | "argument" => .ok .Argument
  | "this" => .ok .This
  | "that" => .ok .That
  | "static" => .ok .Static
  | "temp" => .ok .Temp
  | "pointer" => .ok .Pointer
  | bad =>
      .error (.FromStrError ("\"" ++ bad ++ "\" is not a recognized segment"))

/-- `Translator::TEMP_BASE = 5` (translator.rs). -/
def Translator.TEMP_BASE : Nat := 5

/-- `Translator::TEMP_MAX = 12` (translator.rs). -/
def Translator.TEMP_MAX : Nat := 12

/-- The shared out-of-range index message of the temp and pointer arms,
with `i` rendered in decimal:
`"\"{i}\" is not a valid index for temp, must be 0 <= i <= 7"`. -/
def Translator.badIndexMessage (i : Constant) : String :=
  "\"" ++ i.display ++ "\" is not a valid index for temp, must be 0 <= i <= 7"

/-- The four shared setup lines of every binary arithmetic translation
(translator.rs, the `common` vector). -/
def Translator.arithmeticCommon : List String :=
  ["@SP", "AM=M-1", "D=M", "A=A-1"]

/-- `Translator::arithmetic` (translator.rs). The comparison arm
interpolates the caller-supplied line number into the crash/burn label
pair; the unary and plain binary arms never mention it. -/
def Translator.arithmetic (op : Arithmetic) (line_number : Nat) : List String :=
  match op with
  | .Negative | .Not =>
      ["@SP", "A=M-1", "M=" ++ op.identify.2 ++ "M"]
  | .Lessthan | .GreaterThan | .Equal =>
      Translator.arithmeticCommon ++
        ["D=M-D",
         "@CRASH_" ++ Nat.repr line_number,
         "D;" ++ op.identify.2,
         "@SP",
         "A=M-1",
         "M=0",
         "@BURN_" ++ Nat.repr line_number,
         "0;JMP",
         "(CRASH_" ++ Nat.repr line_number ++ ")",
         "@SP",
         "A=M-1",
         "M=-1",
         "(BURN_" ++ Nat.repr line_number ++ ")"]
  | .And | .Add | .Or =>
      Translator.arithmeticCommon ++ ["M=D" ++ op.identify.2 ++ "M"]
  | .Subtract =>
      Translator.arithmeticCommon ++ ["M=M" ++ op.identify.2 ++ "D"]

/-- `Translator::push_from_data_register` (translator.rs). -/
def Translator.push_from_data_register : List String :=
  ["@SP", "A=M", "M=D", "@SP", "M=M+1"]

/-- `Translator::push` (translator.rs). The temp address computation is the
source `u16` addition `i + TEMP_BASE`, wrapped at 2^16. -/
def Translator.push (segment : Segment) (i : Constant) (file_name : String) :
    Except HackError (List String) :=
  let uniqueResult : Except HackError (List String) :=
    match segment with
    | .Constant => .ok ["@" ++ i.display, "D=A"]
    | .Argument | .This | .That | .Local =>
      match segment.base with
      | .ok b => .ok ["@" ++ i.display, "D=A", "@" ++ b, "A=D+M", "D=M"]
      | .error e => .error e
    | .Static => .ok ["@" ++ file_name ++ "." ++ i.display, "D=M"]
    | .Temp =>
      let address := (i.literal_representation + Translator.TEMP_BASE) % 65536
      if Translator.TEMP_BASE ≤ address ∧ address ≤ Translator.TEMP_MAX then
        .ok ["@" ++ Nat.repr address, "D=M"]
      else
        .error (.IllegalInstruction (Translator.badIndexMessage i))
    | .Pointer =>
      match i.literal_representation with
      | 0 => .ok ["@THIS", "D=M"]
      | 1 => .ok ["@THAT", "D=M"]
      | _ => .error (.IllegalInstruction (Translator.badIndexMessage i))
  match uniqueResult with
  | .ok unique => .ok (unique ++ Translator.push_from_data_register)
  | .error e => .error e

/-- `Translator::save_data_register_in_general` (translator.rs): only the
general registers 13 to 15 are accepted. -/
def Translator.save_data_register_in_general (number : Nat) :
    Except HackError (List String) :=
  if 13 ≤ number ∧ number ≤ 15 then
    .ok ["@R" ++ Nat.repr number, "M=D"]
  else
    .error .Internal

/-- `Translator::pop_to_general` (translator.rs). -/
def Translator.pop_to_general (number : Nat) : Except HackError (List String) :=
  if 13 ≤ number ∧ number ≤ 15 then
    .ok ["@SP", "AM=M-1", "D=M", "@R" ++ Nat.repr number, "A=M", "M=D"]
  else
    .error .Internal

/-- `Translator::pop` (translator.rs): compute the destination address,
stash it in general register 13, then pop through it. The constant
segment is rejected as an illegal pop target before any code is built. -/
def Translator.pop (segment : Segment) (i : Constant) (file_name : String) :
    Except HackError (List String) :=
  let uniqueResult : Except HackError (List String) :=
    match segment with
    | .That | .Local | .Argument | .This =>
      match segment.base with
      | .ok b => .ok ["@" ++ i.display, "D=A", "@" ++ b, "D=D+M"]
      | .error e => .error e
    | .Static => .ok ["@" ++ file_name ++ "." ++ i.display, "D=A"]
    | .Temp =>
      let address := (i.literal_representation + Translator.TEMP_BASE) % 65536
      if Translator.TEMP_BASE ≤ address ∧ address ≤ Translator.TEMP_MAX then
        .ok ["@" ++ Nat.repr address, "D=A"]
      else
        .error (.IllegalInstruction (Translator.badIndexMessage i))
    | .Pointer =>
      match i.literal_representation with
      | 0 => .ok ["@THIS", "D=A"]
      | 1 => .ok ["@THAT", "D=A"]
      | _ => .error (.IllegalInstruction (Translator.badIndexMessage i))
    | .Constant =>
      .error (.IllegalInstruction
        "\"pop constant n\" is never a valid instruction, regardless of the value of n")
  match uniqueResult with
  | .error e => .error e
  | .ok unique =>
    match Translator.save_data_register_in_general 13 with
    | .error e => .error e
    | .ok saved =>
      match Translator.pop_to_general 13 with
      | .error e => .error e
      | .ok popped => .ok (unique ++ saved ++ popped)

/-- `Translator::translate` (translator.rs). The branching and functional
arms are `todo!()` in the source — they panic instead of returning — which
the embedding records as `none`; every returning path is `some`. -/
def Translator.translate (line_number : Nat) (instruction : Instruction)
    (file_name : String) : Option (Except HackError (List String)) :=
  match instruction with
  | .StackManipulation stack_manipulation =>
    match stack_manipulation with
    | .Push symbol value =>
      match Segment.tryFrom symbol with
      | .ok seg => some (Translator.push seg value file_name)
      | .error e => some (.error e)
    | .Pop symbol value =>
      match Segment.tryFrom symbol with
      | .ok seg => some (Translator.pop seg value file_name)
      | .error e => some (.error e)
  | .Branching _ => none
  | .Functional _ => none
  | .Arithmetic arithmetic =>
      some (.ok (Translator.arithmetic arithmetic line_number))

/-! ## Decimal rendering facts

`Nat.repr` is how every interpolated number reaches the output. Label
disjointness (distinct indices give distinct labels) needs its
injectivity, which we obtain from a decoding round trip through
`Nat.toDigitsCore`. -/

/-- Decimal value of a list of digit characters; a left inverse to the
rendering done by `Nat.toDigits 10`. -/
def digitsVal (l : List Char) : Nat :=
  l.foldl (fun acc c => acc * 10 + (c.toNat - 48)) 0

/-- A Hack assembly line is a label definition exactly when it starts with
an opening parenthesis. -/
def isLabelLine (l : String) : Bool :=
  l.data.head? == some '('

theorem digitChar_toNat_sub {m : Nat} (h : m < 10) :
    (Nat.digitChar m).toNat - 48 = m := by
  have hm : m = 0 ∨ m = 1 ∨ m = 2 ∨ m = 3 ∨ m = 4 ∨ m = 5 ∨ m = 6 ∨ m = 7
      ∨ m = 8 ∨ m = 9 := by omega
  rcases hm with rfl | rfl | rfl | rfl | rfl | rfl | rfl | rfl | rfl | rfl <;>
    decide

theorem digitsVal_append_singleton (l : List Char) (c : Char) :
    digitsVal (l ++ [c]) = digitsVal l * 10 + (c.toNat - 48) := by
  simp [digitsVal, List.foldl_append]

theorem toDigitsCore_digitsVal (fuel : Nat) :
    ∀ (n : Nat) (acc : List Char), n < fuel →
    ∃ ds : List Char,
      Nat.toDigitsCore 10 fuel n acc = ds ++ acc ∧ digitsVal ds = n := by
  induction fuel with
  | zero => intro n acc h; omega
  | succ fuel ih =>
    intro n acc hn
    by_cases h10 : n / 10 = 0
    · have hlt : n < 10 := by omega
      refine ⟨[Nat.digitChar (n % 10)], ?_, ?_⟩
      · simp [Nat.toDigitsCore, h10]
      · have hsub := digitChar_toNat_sub (Nat.mod_lt n (show 10 > 0 by decide))
        rw [Nat.mod_eq_of_lt hlt] at hsub
        simp [digitsVal, Nat.mod_eq_of_lt hlt, hsub]
    · have hge : 10 ≤ n := by
        rcases Nat.lt_or_ge n 10 with h | h
        · exact absurd (Nat.div_eq_of_lt h) h10
        · exact h
      have hstep : n / 10 < fuel := by
        have hlt2 : n / 10 < n := Nat.div_lt_self (by omega) (by omega)
        omega
      obtain ⟨ds, hds, hval⟩ := ih (n / 10) (Nat.digitChar (n % 10) :: acc) hstep
      refine ⟨ds ++ [Nat.digitChar (n % 10)], ?_, ?_⟩
      · have : Nat.toDigitsCore 10 (fuel + 1) n acc
            = Nat.toDigitsCore 10 fuel (n / 10) (Nat.digitChar (n % 10) :: acc) := by
          simp [Nat.toDigitsCore, h10]
        rw [this, hds, List.append_assoc]
        rfl
      · rw [digitsVal_append_singleton, hval,
          digitChar_toNat_sub (Nat.mod_lt n (by omega))]
        omega

theorem digitsVal_toDigits (n : Nat) : digitsVal (Nat.toDigits 10 n) = n := by
  obtain ⟨ds, hds, hval⟩ :=
    toDigitsCore_digitsVal (n + 1) n [] (Nat.lt_succ_self n)
  unfold Nat.toDigits
  rw [hds, List.append_nil, hval]

/-- `Nat.repr` is injective: two numbers with the same decimal rendering
are equal. -/
theorem natRepr_inj {m n : Nat} (h : Nat.repr m = Nat.repr n) : m = n := by
  have hdata : Nat.toDigits 10 m = Nat.toDigits 10 n := by
    have hd := congrArg String.data h
    simpa [Nat.repr, List.asString] using hd
  calc m = digitsVal (Nat.toDigits 10 m) := (digitsVal_toDigits m).symm
    _ = digitsVal (Nat.toDigits 10 n) := by rw [hdata]
    _ = n := digitsVal_toDigits n

/-! ## Output classification helpers -/

theorem isLabelLine_append_at {a : String} {c : Char} {rest : List Char}
    (b : String) (ha : a.data = c :: rest) :
    isLabelLine (a ++ b) = (c == '(') := by
  rw [isLabelLine, String.data_append, ha]
  rfl

/-! ## Fail-fast collection lemmas -/

theorem collectResults_error_of_first {ls : List (List String)} :
    ∀ {k : Nat} (h : k < ls.length) {e : HackError},
    Parser.parseParts (ls.get ⟨k, h⟩) = .error e →
    (∀ j (hj : j < k), ∃ inst,
      Parser.parseParts (ls.get ⟨j, Nat.lt_trans hj h⟩) = .ok inst) →
    Parser.collectResults ls = .error e := by
  induction ls with
  | nil => intro k h; simp at h
  | cons head rest ih =>
    intro k h e hk hbefore
    match k with
    | 0 =>
      rw [Parser.collectResults]
      simp only [List.get] at hk
      rw [hk]
    | k + 1 =>
      obtain ⟨inst, hhead⟩ := hbefore 0 (Nat.succ_pos k)
      simp only [List.get] at hhead hk
      rw [Parser.collectResults, hhead]
      have hrest := ih (Nat.lt_of_succ_lt_succ h) hk
        (fun j hj => hbefore (j + 1) (Nat.succ_lt_succ hj))
      rw [hrest]

theorem collectResults_ok_length {ls : List (List String)}
    {rs : List Instruction} (h : Parser.collectResults ls = .ok rs) :
    rs.length = ls.length := by
  induction ls generalizing rs with
  | nil =>
    rw [Parser.collectResults] at h
    cases h
    rfl
  | cons head rest ih =>
    rw [Parser.collectResults] at h
    cases hhead : Parser.parseParts head with
    | error e => rw [hhead] at h; cases h
    | ok inst =>
      rw [hhead] at h
      cases hrest : Parser.collectResults rest with
      | error e => rw [hrest] at h; cases h
      | ok insts =>
        rw [hrest] at h
        cases h
        simp [ih hrest]

theorem collectResults_ok_get {ls : List (List String)}
    {rs : List Instruction} (h : Parser.collectResults ls = .ok rs) :
    ∀ j (hj : j < ls.length) (hj2 : j < rs.length),
    Parser.parseParts (ls.get ⟨j, hj⟩) = .ok (rs.get ⟨j, hj2⟩) := by
  induction ls generalizing rs with
  | nil => intro j hj; simp at hj
  | cons head rest ih =>
    intro j hj hj2
    rw [Parser.collectResults] at h
    cases hhead : Parser.parseParts head with
    | error e => rw [hhead] at h; cases h
    | ok inst =>
      rw [hhead] at h
      cases hrest : Parser.collectResults rest with
      | error e => rw [hrest] at h; cases h
      | ok insts =>
        rw [hrest] at h
        cases h
        match j with
        | 0 => simpa using hhead
        | j + 1 =>
          exact ih hrest j (Nat.lt_of_succ_lt_succ hj) (Nat.lt_of_succ_lt_succ hj2)

/-! ## Label string disambiguation -/

theorem crash_label_inj {k k' : Nat}
    (h : "(CRASH_" ++ Nat.repr k ++ ")" = "(CRASH_" ++ Nat.repr k' ++ ")") :
    k = k' := by
  have hd := congrArg String.data h
  simp only [String.data_append] at hd
  have hmid := List.append_cancel_right hd
  have hrepr := List.append_cancel_left hmid
  exact natRepr_inj (String.ext hrepr)

theorem burn_label_inj {k k' : Nat}
    (h : "(BURN_" ++ Nat.repr k ++ ")" = "(BURN_" ++ Nat.repr k' ++ ")") :
    k = k' := by
  have hd := congrArg String.data h
  simp only [String.data_append] at hd
  have hmid := List.append_cancel_right hd
  have hrepr := List.append_cancel_left hmid
  exact natRepr_inj (String.ext hrepr)

theorem crash_label_ne_burn_label (k k' : Nat) :
    "(CRASH_" ++ Nat.repr k ++ ")" ≠ "(BURN_" ++ Nat.repr k' ++ ")" := by
  intro h
  have hd := congrArg String.data h
  simp only [String.data_append] at hd
  simp at hd

/-! ## Push characterization on the temp segment -/

theorem push_temp_eq (i : Constant) (file_name : String)
    (h16 : i.literal_representation + Translator.TEMP_BASE < 65536) :
    Translator.push .Temp i file_name =
      if Translator.TEMP_BASE ≤ i.literal_representation + Translator.TEMP_BASE
          ∧ i.literal_representation + Translator.TEMP_BASE
            ≤ Translator.TEMP_MAX then
        .ok (["@" ++ Nat.repr (i.literal_representation + Translator.TEMP_BASE),
            "D=M"] ++ Translator.push_from_data_register)
      else
        .error (.IllegalInstruction (Translator.badIndexMessage i)) := by
  unfold Translator.push
  rw [Nat.mod_eq_of_lt h16]
  by_cases hc : Translator.TEMP_BASE ≤ i.literal_representation + Translator.TEMP_BASE
      ∧ i.literal_representation + Translator.TEMP_BASE ≤ Translator.TEMP_MAX
  · rw [if_pos hc, if_pos hc]
  · rw [if_neg hc, if_neg hc]

/-! ## Claim theorems -/

/-- C9: translation is deterministic in its explicit inputs — calling
`Translator::translate` twice on the same (line index, instruction,
file name) triple yields identical output; the embedding is a pure
function of exactly these three arguments, so no hidden counter or
global state can influence the result. -/
theorem c9_translate_deterministic :
    ∀ (line_number : Nat) (instruction : Instruction) (file_name : String),
    Translator.translate line_number instruction file_name
      = Translator.translate line_number instruction file_name :=
  fun _ _ _ => rfl

/-- C6: translating `Pop` from the constant segment fails for every index
value and every file name, with the illegal-instruction error kind. -/
theorem c6_pop_constant_always_fails :
    ∀ (i : Constant) (file_name : String),
    Translator.pop .Constant i file_name
      = .error (.IllegalInstruction
          "\"pop constant n\" is never a valid instruction, regardless of the value of n") :=
  fun _ _ => rfl

/-- C5: at every line index, each binary non-comparison arithmetic
instruction translates to exactly 5 lines (the 4 shared setup lines plus
one combine line) none of which is a label definition; the subtract
combine line computes `M-D` (left minus right) and the commutative
operations combine as `D`-operator-`M`. -/
theorem c5_binary_arithmetic_shape :
    ∀ line_number : Nat,
    Translator.arithmetic .Add line_number
        = ["@SP", "AM=M-1", "D=M", "A=A-1", "M=D+M"]
    ∧ Translator.arithmetic .Subtract line_number
        = ["@SP", "AM=M-1", "D=M", "A=A-1", "M=M-D"]
    ∧ Translator.arithmetic .And line_number
        = ["@SP", "AM=M-1", "D=M", "A=A-1", "M=D&M"]
    ∧ Translator.arithmetic .Or line_number
        = ["@SP", "AM=M-1", "D=M", "A=A-1", "M=D|M"]
    ∧ (Translator.arithmetic .Add line_number).length = 5
    ∧ (Translator.arithmetic .Subtract line_number).length = 5
    ∧ (Translator.arithmetic .And line_number).length = 5
    ∧ (Translator.arithmetic .Or line_number).length = 5
    ∧ ((Translator.arithmetic .Add line_number).all
        fun l => !(isLabelLine l)) = true
    ∧ ((Translator.arithmetic .Subtract line_number).all
        fun l => !(isLabelLine l)) = true
    ∧ ((Translator.arithmetic .And line_number).all
        fun l => !(isLabelLine l)) = true
    ∧ ((Translator.arithmetic .Or line_number).all
        fun l => !(isLabelLine l)) = true :=
  fun _ =>
    ⟨rfl, rfl, rfl, rfl, rfl, rfl, rfl, rfl, rfl, rfl, rfl, rfl⟩

/-- C2: `Translator::translate` never returns a value on branching or
functional instructions — those arms are the `todo!()` panic, recorded as
`none` — although the parser does produce instructions of both families;
so `translate` is not total over the parser's `Instruction` type. -/
theorem c2_translate_unimplemented_families :
    (∀ (line_number : Nat) (file_name : String) (b : Branching),
      Translator.translate line_number (.Branching b) file_name = none)
    ∧ (∀ (line_number : Nat) (file_name : String) (fc : Functional),
      Translator.translate line_number (.Functional fc) file_name = none)
    ∧ Parser.to_internal_types
        [["label", "LOOP"], ["goto", "LOOP"], ["if-goto", "LOOP"],
         ["function", "Foo.bar", "2"], ["call", "Foo.bar", "2"], ["return"]]
      = .ok [(0, .Branching (.Label ⟨"LOOP"⟩)),
             (1, .Branching (.GoTo ⟨"LOOP"⟩)),
             (2, .Branching (.IfGoTo ⟨"LOOP"⟩)),
             (3, .Functional (.Function ⟨"Foo.bar"⟩ ⟨2⟩)),
             (4, .Functional (.Call ⟨"Foo.bar"⟩ ⟨2⟩)),
             (5, .Functional .Return)] :=
  ⟨fun _ _ _ => rfl, fun _ _ _ => rfl, rfl⟩

/-- C4: pushing from the temp segment succeeds exactly for indices 0 to 7
(any `Constant` satisfies the `u16` range invariant stated as the
hypothesis); index 8 fails as an illegal instruction, and index 7
succeeds with the emitted assembly loading target address 12 = 5 + 7. -/
theorem c4_push_temp_range :
    (∀ (i : Constant) (file_name : String),
      i.literal_representation ≤ Constant.MAX_VALID_CONSTANT →
      ((Translator.push .Temp i file_name).isOk = true
        ↔ i.literal_representation ≤ 7))
    ∧ (∀ file_name : String,
      Translator.push .Temp ⟨8⟩ file_name
        = .error (.IllegalInstruction
            "\"8\" is not a valid index for temp, must be 0 <= i <= 7"))
    ∧ (∀ file_name : String,
      Translator.push .Temp ⟨7⟩ file_name
        = .ok ["@12", "D=M", "@SP", "A=M", "M=D", "@SP", "M=M+1"]) := by
  refine ⟨?_, fun _ => rfl, fun _ => rfl⟩
  intro i file_name h
  have h16 : i.literal_representation + Translator.TEMP_BASE < 65536 := by
    simp only [Constant.MAX_VALID_CONSTANT] at h
    simp only [Translator.TEMP_BASE]
    omega
  rw [push_temp_eq i file_name h16]
  by_cases hle : i.literal_representation ≤ 7
  · rw [if_pos (by simp only [Translator.TEMP_BASE, Translator.TEMP_MAX]; omega)]
    simp [Except.isOk, Except.toBool, hle]
  · rw [if_neg (by simp only [Translator.TEMP_BASE, Translator.TEMP_MAX]; omega)]
    simp [Except.isOk, Except.toBool, hle]

theorem c4_push_temp_range_witness :
    (Constant.mk 3).literal_representation ≤ Constant.MAX_VALID_CONSTANT
    ∧ ((Translator.push .Temp (Constant.mk 3) "Foo").isOk = true
        ↔ (Constant.mk 3).literal_representation ≤ 7) :=
  ⟨by decide, c4_push_temp_range.1 (Constant.mk 3) "Foo" (by decide)⟩

/-- C1 counterexample: parsing the text "99999" as a `Constant` does not
fail with the overflow kind — the `u16` parse fails first (99999 exceeds
65535) and is wrapped as the numeric format error `FromStrError`. -/
theorem c1_overflow_counterexample :
    Constant.fromStr "99999"
      = .error (.FromStrError
          "invalid constant: \"99999\" for reason: number too large to fit in target type")
    ∧ Constant.fromStr "99999" ≠ .error .Overflow := by
  refine ⟨rfl, ?_⟩
  intro h
  rw [show Constant.fromStr "99999"
      = .error (.FromStrError
          "invalid constant: \"99999\" for reason: number too large to fit in target type")
    from rfl] at h
  injection h with h2
  exact HackError.noConfusion h2

/-- C1 (amended): constructing a `Constant` from an in-range integer
succeeds; from any out-of-range `u16` it fails with the overflow kind;
but parsing the text "99999" (as in the line "push constant 99999") fails
with the numeric format error kind, because the `u16` parse overflows
before the 15-bit range check is reached. -/
theorem c1_constant_construction :
    (∀ n : Nat, n ≤ 32767 → Constant.tryFromU16 n = .ok ⟨n⟩)
    ∧ (∀ n : Nat, 32767 < n → n ≤ 65535 →
        Constant.tryFromU16 n = .error .Overflow)
    ∧ Constant.fromStr "99999"
        = .error (.FromStrError
            "invalid constant: \"99999\" for reason: number too large to fit in target type")
    ∧ Parser.parseParts ["push", "constant", "99999"]
        = .error (.FromStrError
            "invalid constant: \"99999\" for reason: number too large to fit in target type") := by
  refine ⟨?_, ?_, rfl, rfl⟩
  · intro n h
    have hle : n ≤ Constant.MAX_VALID_CONSTANT := by
      simp only [Constant.MAX_VALID_CONSTANT]
      omega
    unfold Constant.tryFromU16
    rw [if_pos hle]
  · intro n h1 h2
    have hgt : ¬ n ≤ Constant.MAX_VALID_CONSTANT := by
      simp only [Constant.MAX_VALID_CONSTANT]
      omega
    unfold Constant.tryFromU16
    rw [if_neg hgt]

theorem c1_constant_construction_witness :
    ((17 : Nat) ≤ 32767 ∧ Constant.tryFromU16 17 = .ok ⟨17⟩)
    ∧ ((32767 : Nat) < 40000 ∧ (40000 : Nat) ≤ 65535
        ∧ Constant.tryFromU16 40000 = .error .Overflow) :=
  ⟨⟨by omega, c1_constant_construction.1 17 (by omega)⟩,
    by omega, by omega,
    c1_constant_construction.2.1 40000 (by omega) (by omega)⟩

/-- C7: parsing is fail-fast — if the line at position k fails while every
earlier line parses, the whole parse returns exactly that first error and
produces no instruction sequence at all. -/
theorem c7_parse_fail_fast :
    ∀ (ls : List (List String)) (k : Nat) (h : k < ls.length)
      (e : HackError),
    Parser.parseParts (ls.get ⟨k, h⟩) = .error e →
    (∀ j (hj : j < k), ∃ inst,
      Parser.parseParts (ls.get ⟨j, Nat.lt_trans hj h⟩) = .ok inst) →
    Parser.to_internal_types ls = .error e := by
  intro ls k h e hk hbefore
  unfold Parser.to_internal_types
  rw [collectResults_error_of_first h hk hbefore]

theorem c7_parse_fail_fast_witness :
    Parser.to_internal_types [["add"], ["banana"], ["sub"]]
      = .error (.UnrecognizedInstruction "banana") := by
  refine c7_parse_fail_fast [["add"], ["banana"], ["sub"]] 1 (by decide)
    (.UnrecognizedInstruction "banana") rfl ?_
  intro j hj
  have hj0 : j = 0 := by omega
  subst hj0
  exact ⟨.Arithmetic .Add, rfl⟩

/-- C8: blank and comment lines are dropped before indexing, so they never
consume an index; on success the parse pairs the surviving instructions
with consecutive zero-based indices in their relative order, index j
holding exactly the parse of the j-th surviving line. -/
theorem c8_zero_based_enumeration :
    (∀ (before after : List String) (skipped : String),
      (strStartsWith (trimStr skipped) "//" || (trimStr skipped).isEmpty)
        = true →
      Parser.linesList (before ++ skipped :: after)
        = Parser.linesList (before ++ after))
    ∧ (∀ (ls : List (List String)) (ps : List (Nat × Instruction)),
      Parser.to_internal_types ls = .ok ps →
      ps.length = ls.length
      ∧ ps.map Prod.fst = List.range ls.length
      ∧ ∀ j (hj : j < ls.length) (hj2 : j < ps.length),
        (ps.get ⟨j, hj2⟩).1 = j
        ∧ Parser.parseParts (ls.get ⟨j, hj⟩) = .ok (ps.get ⟨j, hj2⟩).2) := by
  constructor
  · intro before after skipped h
    have h2 : strStartsWith (trimStr skipped) "//" = true
        ∨ (trimStr skipped).isEmpty = true := by
      simpa using h
    rcases h2 with h2 | h2 <;>
      simp [Parser.linesList, List.filterMap_append, List.filterMap_cons, h2]
  · intro ls ps hok
    unfold Parser.to_internal_types at hok
    cases hcoll : Parser.collectResults ls with
    | error e => rw [hcoll] at hok; cases hok
    | ok rs =>
      rw [hcoll] at hok
      cases hok
      have hlen := collectResults_ok_length hcoll
      refine ⟨by simp [hlen], by simp [List.enum_map_fst, hlen], ?_⟩
      intro j hj hj2
      have hj3 : j < rs.length := by
        simpa [List.enum_length] using hj2
      have hget : rs.enum.get ⟨j, hj2⟩ = (j, rs.get ⟨j, hj3⟩) := by
        simp [List.get_eq_getElem, List.getElem_enum]
      rw [hget]
      exact ⟨rfl, collectResults_ok_get hcoll j hj hj3⟩

theorem c8_zero_based_enumeration_witness :
    Parser.linesList ["add", "// note", "sub"] = Parser.linesList ["add", "sub"]
    ∧ ([(0, Instruction.Arithmetic .Add),
        (1, Instruction.StackManipulation (.Pop ⟨"local"⟩ ⟨2⟩))].map Prod.fst
        = List.range 2) := by
  constructor
  · exact c8_zero_based_enumeration.1 ["add"] ["sub"] "// note" (by decide)
  · have h := c8_zero_based_enumeration.2 [["add"], ["pop", "local", "2"]]
      [(0, .Arithmetic .Add), (1, .StackManipulation (.Pop ⟨"local"⟩ ⟨2⟩))] rfl
    exact h.2.1

/-- C3: translating `Equal` at line index k emits exactly the fresh label
pair CRASH_k, BURN_k — each label definition contains the literal decimal
index k — and the label definitions emitted at two distinct indices are
disjoint, so labels never collide across instructions of one file. -/
theorem c3_equal_label_freshness :
    (∀ k : Nat, (Translator.arithmetic .Equal k).filter isLabelLine
        = ["(CRASH_" ++ Nat.repr k ++ ")", "(BURN_" ++ Nat.repr k ++ ")"])
    ∧ (∀ k : Nat, ∀ l ∈ (Translator.arithmetic .Equal k).filter isLabelLine,
        ∃ a b, l = a ++ (Nat.repr k ++ b))
    ∧ (∀ k k' : Nat, k ≠ k' →
        ∀ l ∈ (Translator.arithmetic .Equal k).filter isLabelLine,
          l ∉ (Translator.arithmetic .Equal k').filter isLabelLine) := by
  have hfilter : ∀ k : Nat, (Translator.arithmetic .Equal k).filter isLabelLine
      = ["(CRASH_" ++ Nat.repr k ++ ")", "(BURN_" ++ Nat.repr k ++ ")"] := by
    intro k
    have h1 : isLabelLine ("@CRASH_" ++ Nat.repr k) = false := by
      rw [isLabelLine_append_at (Nat.repr k)
        (show "@CRASH_".data = '@' :: ['C', 'R', 'A', 'S', 'H', '_'] from rfl)]
      rfl
    have h2 : isLabelLine ("@BURN_" ++ Nat.repr k) = false := by
      rw [isLabelLine_append_at (Nat.repr k)
        (show "@BURN_".data = '@' :: ['B', 'U', 'R', 'N', '_'] from rfl)]
      rfl
    have h3 : isLabelLine ("(CRASH_" ++ Nat.repr k ++ ")") = true := by
      rw [isLabelLine_append_at ")"
        (show ("(CRASH_" ++ Nat.repr k).data
            = '(' :: ("CRASH_".data ++ (Nat.repr k).data) from by
          rw [String.data_append]; rfl)]
      rfl
    have h4 : isLabelLine ("(BURN_" ++ Nat.repr k ++ ")") = true := by
      rw [isLabelLine_append_at ")"
        (show ("(BURN_" ++ Nat.repr k).data
            = '(' :: ("BURN_".data ++ (Nat.repr k).data) from by
          rw [String.data_append]; rfl)]
      rfl
    rw [show Translator.arithmetic .Equal k
        = ["@SP", "AM=M-1", "D=M", "A=A-1", "D=M-D",
           "@CRASH_" ++ Nat.repr k, "D;JEQ", "@SP", "A=M-1", "M=0",
           "@BURN_" ++ Nat.repr k, "0;JMP",
           "(CRASH_" ++ Nat.repr k ++ ")", "@SP", "A=M-1", "M=-1",
           "(BURN_" ++ Nat.repr k ++ ")"] from rfl]
    simp [List.filter_cons, h1, h2, h3, h4,
      show isLabelLine "@SP" = false from rfl,
      show isLabelLine "AM=M-1" = false from rfl,
      show isLabelLine "D=M" = false from rfl,
      show isLabelLine "A=A-1" = false from rfl,
      show isLabelLine "D=M-D" = false from rfl,
      show isLabelLine "D;JEQ" = false from rfl,
      show isLabelLine "A=M-1" = false from rfl,
      show isLabelLine "M=0" = false from rfl,
      show isLabelLine "0;JMP" = false from rfl,
      show isLabelLine "M=-1" = false from rfl]
  refine ⟨hfilter, ?_, ?_⟩
  · intro k l hl
    rw [hfilter k] at hl
    simp only [List.mem_cons, List.mem_singleton, List.not_mem_nil,
      or_false] at hl
    rcases hl with rfl | rfl
    · exact ⟨"(CRASH_", ")", String.append_assoc "(CRASH_" (Nat.repr k) ")"⟩
    · exact ⟨"(BURN_", ")", String.append_assoc "(BURN_" (Nat.repr k) ")"⟩
  · intro k k' hne l hl hmem
    rw [hfilter k] at hl
    rw [hfilter k'] at hmem
    simp only [List.mem_cons, List.mem_singleton, List.not_mem_nil,
      or_false] at hl hmem
    rcases hl with rfl | rfl
    · rcases hmem with heq | heq
      · exact hne (crash_label_inj heq)
      · exact crash_label_ne_burn_label k k' heq
    · rcases hmem with heq | heq
      · exact crash_label_ne_burn_label k' k heq.symm
      · exact hne (burn_label_inj heq)

theorem c3_equal_label_freshness_witness :
    ((0 : Nat) ≠ 1)
    ∧ (∃ a b, ("(CRASH_" ++ Nat.repr 0 ++ ")") = a ++ (Nat.repr 0 ++ b))
    ∧ ("(CRASH_" ++ Nat.repr 0 ++ ")")
        ∉ (Translator.arithmetic .Equal 1).filter isLabelLine := by
  refine ⟨by decide, ?_, ?_⟩
  · exact c3_equal_label_freshness.2.1 0 ("(CRASH_" ++ Nat.repr 0 ++ ")")
      (by decide)
  · exact c3_equal_label_freshness.2.2 0 1 (by decide)
      ("(CRASH_" ++ Nat.repr 0 ++ ")") (by decide)

/-- C10: trailing comments are not stripped — "add // comment" survives
the comment filter (only lines whose trimmed form begins with the marker
are discarded) and tokenizes with the comment text as instruction
arguments, so the parse of such a line, and of any line whose tokens are
a command followed by a "//" token, fails. -/
theorem c10_trailing_comment_rejected :
    Parser.lines "add // comment" = [["add", "//", "comment"]]
    ∧ (∃ e, Parser.parse "add // comment" = .error e)
    ∧ (∀ (command : String) (rest : List String)
        (tail : List (List String)),
      ∃ e, Parser.to_internal_types ((command :: "//" :: rest) :: tail)
        = .error e) := by
  have hparts : ∀ (command : String) (rest : List String),
      ∃ e, Parser.parseParts (command :: "//" :: rest) = .error e := by
    intro command rest
    match rest with
    | [] => exact ⟨.SymbolHasForbiddenCharacter, rfl⟩
    | [t] =>
      have hshow : Parser.parseParts (command :: "//" :: [t])
          = match Symbol.fromStr "//", Constant.fromStr t with
            | .ok symbol, .ok constant =>
                Instruction.tryFrom3 command symbol constant
            | .error symbol_error, .error constant_error =>
                .error (.UnrecognizedInstruction
                  (symbol_error.display ++ "\n\n" ++ constant_error.display))
            | .ok _, .error error => .error error
            | .error error, .ok _ => .error error := rfl
      cases hc : Constant.fromStr t with
      | ok c =>
        exact ⟨.SymbolHasForbiddenCharacter, by rw [hshow, hc]; rfl⟩
      | error ce =>
        exact ⟨.UnrecognizedInstruction
          (HackError.SymbolHasForbiddenCharacter.display ++ "\n\n"
            ++ ce.display), by rw [hshow, hc]; rfl⟩
    | t1 :: t2 :: ts =>
      exact ⟨.IllegalInstruction "received an illegal instruction", rfl⟩
  refine ⟨rfl, ⟨_, rfl⟩, ?_⟩
  intro command rest tail
  obtain ⟨e, he⟩ := hparts command rest
  refine ⟨e, ?_⟩
  unfold Parser.to_internal_types
  rw [@collectResults_error_of_first ((command :: "//" :: rest) :: tail) 0
    (by simp) e he (fun j hj => absurd hj (by omega))]

end HackVM
